import Mathlib

/-!
# Verification of the multiplayer state-synchronization subsystem

Shallow embedding of the network layer shared by `1-live.py` and
`live-8.9.25.-a.py` (the `NetworkManager` class and
`GameEngine._handle_network_message`), together with proofs settling
the specification claims about it.

Modelling conventions:
* Python's dynamically typed values that can occur in packets are the
  inductive `PyVal`.  Python `int` and `float` are collapsed into a
  single rational constructor `PyVal.num` (Python's `==` compares them
  numerically, and every claim-relevant value is an integer); `NaN` and
  the infinities, which `json.loads` accepts, get their own
  constructors.
* Python dicts are insertion-ordered association lists.  `ainsert`
  models `d[k] = v` (replace in place, else append), `aerase` models
  `del d[k]`, and `dictUpdate` models `dict.update` (incoming
  overwrites, omitted keys retained).
* Fallible Python code is modelled with `Except PyErr`; an exception
  that the source catches at the `except Exception` boundary of a loop
  shows up as an `Except.error` that the loop-step function turns into
  "state unchanged, nothing sent".
* Datagrams are modelled as `String`s (the UTF-8 decode step of
  `bytes.decode()` is absorbed into the datagram type).
* `time.time()` results are inputs, passed in as an explicit `now`
  argument; the code never inspects them.
-/

set_option linter.unusedVariables false

/-- The `PacketType` enumeration from the source (`class PacketType(Enum)`). -/
inductive PacketType where
  | CONNECT
  | DISCONNECT
  | PLAYER_UPDATE
  | CHAT_MESSAGE
  | BATTLE_REQUEST
  | BATTLE_ACTION
  | WORLD_STATE
  | DOWNLOAD_PLAY
  | PATCH_SYNC
  deriving DecidableEq, Repr

/-- The numeric value of each enumeration member (`CONNECT = 0x01`, ...). -/
def PacketType.value : PacketType → Nat
  | .CONNECT => 0x01
  | .DISCONNECT => 0x02
  | .PLAYER_UPDATE => 0x03
  | .CHAT_MESSAGE => 0x04
  | .BATTLE_REQUEST => 0x05
  | .BATTLE_ACTION => 0x06
  | .WORLD_STATE => 0x07
  | .DOWNLOAD_PLAY => 0x08
  | .PATCH_SYNC => 0x09

/-- Python exceptions that the embedded code can raise. -/
inductive PyErr where
  | typeError
  | keyError
  | valueError
  | decodeError
  deriving DecidableEq, Repr

/-- The Python value domain reachable inside packets: JSON-representable
values plus the raw `PacketType` enumeration members that
`_create_packet` places into the packet dict. -/
inductive PyVal where
  | none
  | bool (b : Bool)
  | num (q : Rat)
  | nan
  | inf (neg : Bool)
  | str (s : String)
  | list (xs : List PyVal)
  | dict (fields : List (String × PyVal))
  | enum (t : PacketType)

/-- First-match lookup in an insertion-ordered dict (`d[k]` / `d.get(k)`). -/
def alookup {β : Type} : List (String × β) → String → Option β
  | [], _ => Option.none
  | (k, v) :: rest, key => if k = key then some v else alookup rest key

/-- `d[key] = val` on an insertion-ordered dict: replace the existing
entry in place, otherwise append. -/
def ainsert {β : Type} : List (String × β) → String → β → List (String × β)
  | [], key, val => [(key, val)]
  | (k, v) :: rest, key, val =>
    if k = key then (key, val) :: rest else (k, v) :: ainsert rest key val

/-- `del d[key]` on an insertion-ordered dict. -/
def aerase {β : Type} : List (String × β) → String → List (String × β)
  | [], _ => []
  | (k, v) :: rest, key =>
    if k = key then aerase rest key else (k, v) :: aerase rest key

/-- `key in d` for a dict. -/
def ahasKey {β : Type} (d : List (String × β)) (key : String) : Bool :=
  (alookup d key).isSome

/-- `dict.update`: `for k, v in u.items(): d[k] = v`. -/
def dictUpdate (d u : List (String × PyVal)) : List (String × PyVal) :=
  u.foldl (fun acc kv => ainsert acc kv.1 kv.2) d

@[simp] theorem alookup_nil {β : Type} (key : String) :
    alookup ([] : List (String × β)) key = Option.none := rfl

theorem alookup_cons {β : Type} (k : String) (v : β) (rest : List (String × β))
    (key : String) :
    alookup ((k, v) :: rest) key = if k = key then some v else alookup rest key := rfl

theorem alookup_ainsert_self {β : Type} (d : List (String × β)) (key : String) (val : β) :
    alookup (ainsert d key val) key = some val := by
  induction d with
  | nil => simp [ainsert, alookup]
  | cons hd tl ih =>
    obtain ⟨k, v⟩ := hd
    by_cases h : k = key
    · simp [ainsert, h, alookup]
    · simp [ainsert, h, alookup, ih]

theorem alookup_ainsert_ne {β : Type} (d : List (String × β)) (key x : String) (val : β)
    (h : x ≠ key) : alookup (ainsert d key val) x = alookup d x := by
  induction d with
  | nil => simp [ainsert, alookup, Ne.symm h]
  | cons hd tl ih =>
    obtain ⟨k, v⟩ := hd
    by_cases hk : k = key
    · subst hk
      simp [ainsert, alookup, Ne.symm h]
    · simp [ainsert, hk, alookup, ih]

theorem alookup_aerase_self {β : Type} (d : List (String × β)) (key : String) :
    alookup (aerase d key) key = Option.none := by
  induction d with
  | nil => simp [aerase]
  | cons hd tl ih =>
    obtain ⟨k, v⟩ := hd
    by_cases h : k = key
    · simp [aerase, h, ih]
    · simp [aerase, h, alookup, ih]

theorem alookup_aerase_ne {β : Type} (d : List (String × β)) (key x : String)
    (h : x ≠ key) : alookup (aerase d key) x = alookup d x := by
  induction d with
  | nil => simp [aerase]
  | cons hd tl ih =>
    obtain ⟨k, v⟩ := hd
    by_cases hk : k = key
    · subst hk
      simp [aerase, alookup, Ne.symm h, ih]
    · simp [aerase, hk, alookup, ih]

theorem alookup_mem {β : Type} {d : List (String × β)} {key : String} {v : β}
    (h : alookup d key = some v) : (key, v) ∈ d := by
  induction d with
  | nil => simp [alookup] at h
  | cons hd tl ih =>
    obtain ⟨k, w⟩ := hd
    by_cases hk : k = key
    · subst hk
      simp [alookup] at h
      simp [h]
    · simp [alookup, hk] at h
      exact List.mem_cons_of_mem _ (ih h)

theorem mem_ainsert {β : Type} {d : List (String × β)} {key : String} {val : β}
    {p : String × β} (h : p ∈ ainsert d key val) : p = (key, val) ∨ p ∈ d := by
  induction d with
  | nil => simp [ainsert] at h; simp [h]
  | cons hd tl ih =>
    obtain ⟨k, v⟩ := hd
    by_cases hk : k = key
    · subst hk
      simp [ainsert] at h
      rcases h with h | h
      · exact Or.inl h
      · exact Or.inr (List.mem_cons_of_mem _ h)
    · simp [ainsert, hk] at h
      rcases h with h | h
      · exact Or.inr (by simp [h])
      · rcases ih h with h' | h'
        · exact Or.inl h'
        · exact Or.inr (List.mem_cons_of_mem _ h')

theorem self_mem_ainsert {β : Type} (d : List (String × β)) (key : String) (val : β) :
    (key, val) ∈ ainsert d key val := by
  induction d with
  | nil => simp [ainsert]
  | cons hd tl ih =>
    obtain ⟨k, v⟩ := hd
    by_cases hk : k = key
    · simp [ainsert, hk]
    · simp [ainsert, hk]
      exact Or.inr ih

theorem mem_ainsert_of_mem_ne {β : Type} {d : List (String × β)} {p : String × β}
    (hp : p ∈ d) (key : String) (val : β) (hne : p.1 ≠ key) :
    p ∈ ainsert d key val := by
  induction d with
  | nil => simp at hp
  | cons hd tl ih =>
    obtain ⟨k, v⟩ := hd
    rcases List.mem_cons.1 hp with h | h
    · subst h
      by_cases hk : k = key
      · exact absurd hk hne
      · simp [ainsert, hk]
    · by_cases hk : k = key
      · subst hk
        rw [ainsert, if_pos rfl]
        exact List.mem_cons_of_mem _ h
      · simp only [ainsert, if_neg hk]
        exact List.mem_cons_of_mem _ (ih h)

theorem mem_aerase {β : Type} {d : List (String × β)} {key : String} {p : String × β} :
    p ∈ aerase d key ↔ p ∈ d ∧ p.1 ≠ key := by
  induction d with
  | nil => simp [aerase]
  | cons hd tl ih =>
    obtain ⟨k, v⟩ := hd
    by_cases hk : k = key
    · subst hk
      rw [aerase, if_pos rfl, ih]
      constructor
      · rintro ⟨h1, h2⟩
        exact ⟨List.mem_cons_of_mem _ h1, h2⟩
      · rintro ⟨h1, h2⟩
        rcases List.mem_cons.1 h1 with h | h
        · subst h; exact absurd rfl h2
        · exact ⟨h, h2⟩
    · rw [aerase, if_neg hk]
      constructor
      · intro h
        rcases List.mem_cons.1 h with h' | h'
        · subst h'
          exact ⟨List.mem_cons_self _ _, hk⟩
        · obtain ⟨h1, h2⟩ := ih.1 h'
          exact ⟨List.mem_cons_of_mem _ h1, h2⟩
      · rintro ⟨h1, h2⟩
        rcases List.mem_cons.1 h1 with h' | h'
        · subst h'
          exact List.mem_cons_self _ _
        · exact List.mem_cons_of_mem _ (ih.2 ⟨h', h2⟩)

theorem alookup_eq_none_of_not_mem {β : Type} {d : List (String × β)} {key : String}
    (h : ∀ v, (key, v) ∉ d) : alookup d key = Option.none := by
  induction d with
  | nil => rfl
  | cons hd tl ih =>
    obtain ⟨k, v⟩ := hd
    have hk : ¬k = key := by
      intro hk
      subst hk
      exact h v (List.mem_cons_self _ _)
    rw [alookup, if_neg hk]
    exact ih fun w hw => h w (List.mem_cons_of_mem _ hw)

theorem ainsert_no_change {β : Type} {d : List (String × β)} {key : String} {val : β}
    (h : alookup d key = some val) : ainsert d key val = d := by
  induction d with
  | nil => simp [alookup] at h
  | cons hd tl ih =>
    obtain ⟨k, v⟩ := hd
    by_cases hk : k = key
    · subst hk
      simp [alookup] at h
      simp [ainsert, h]
    · simp [alookup, hk] at h
      simp [ainsert, hk, ih h]

/-- `dictUpdate` looks up to the incoming map first, falling back to the
stored one, provided the incoming map has no duplicate keys. -/
theorem alookup_dictUpdate (s u : List (String × PyVal))
    (hu : (u.map Prod.fst).Nodup) (k : String) :
    alookup (dictUpdate s u) k =
      match alookup u k with
      | some v => some v
      | Option.none => alookup s k := by
  induction u generalizing s with
  | nil => simp [dictUpdate, alookup]
  | cons hd tl ih =>
    obtain ⟨k0, v0⟩ := hd
    simp at hu
    have step : dictUpdate s ((k0, v0) :: tl) = dictUpdate (ainsert s k0 v0) tl := rfl
    rw [step, ih _ hu.2]
    by_cases hk : k0 = k
    · subst hk
      have : alookup tl k0 = Option.none :=
        alookup_eq_none_of_not_mem fun v hv => hu.1 v hv
      simp [alookup, this, alookup_ainsert_self]
    · simp [alookup, hk]
      cases htl : alookup tl k
      · simp [alookup_ainsert_ne s k0 k v0 (Ne.symm hk)]
      · simp

/-- Python `==` against a `PacketType` member, as used by the
`packet['type'] == PacketType.X` dispatch in `_server_loop`,
`_client_loop` consumers and `_handle_network_message`.  `Enum` members
compare equal only to themselves, so any non-enum value yields `False`. -/
def isType : PyVal → PacketType → Bool
  | .enum a, t => a = t
  | _, _ => false

/-- Python truthiness (`if player_id:`). -/
def truthy : PyVal → Bool
  | .none => false
  | .bool b => b
  | .num q => q ≠ 0
  | .nan => true
  | .inf _ => true
  | .str s => s ≠ ""
  | .list xs => !xs.isEmpty
  | .dict d => !d.isEmpty
  | .enum _ => true

/-- Hex digit for `\uXXXX` escapes emitted by the serializer. -/
def hexDigit (n : Nat) : Char :=
  if n < 10 then Char.ofNat (48 + n) else Char.ofNat (87 + n)

/-- Four-digit hex rendering of a code unit. -/
def hex4 (n : Nat) : String :=
  String.mk [hexDigit (n / 4096 % 16), hexDigit (n / 256 % 16),
             hexDigit (n / 16 % 16), hexDigit (n % 16)]

/-- JSON string escaping as performed by `json.dumps` with its default
`ensure_ascii=True`: quote, backslash and control characters are
escaped, non-ASCII characters become `\uXXXX` (astral characters as a
surrogate pair). -/
def jsonEscapeChar (c : Char) : String :=
  if c = '"' then "\\\""
  else if c = '\\' then "\\\\"
  else if c.toNat < 32 then "\\u" ++ hex4 c.toNat
  else if c.toNat < 127 then String.singleton c
  else if c.toNat < 65536 then "\\u" ++ hex4 c.toNat
  else
    let v := c.toNat - 65536
    "\\u" ++ hex4 (55296 + v / 1024) ++ "\\u" ++ hex4 (56320 + v % 1024)

/-- Quoted JSON string literal. -/
def jsonQuote (s : String) : String :=
  "\"" ++ String.join (s.toList.map jsonEscapeChar) ++ "\""

/-- JSON rendering of a number.  Integers render exactly; for non-integer
rationals (which stand in for Python floats) the decimal text is a
best-effort approximation — no claim in this development depends on the
text of a serialized float, because `json.dumps` always fails earlier on
the enum type tag (see `createPacket_always_fails`). -/
def ratToJson (q : Rat) : String :=
  if q.den = 1 then toString q.num
  else toString (q.num * 1000000 / (q.den : Int)) ++ "e-6"

/-- Comma-joined list. -/
def joinComma : List String → String
  | [] => ""
  | [x] => x
  | x :: rest => x ++ ", " ++ joinComma rest

mutual

/-- `json.dumps` on the Python value domain.  The default encoder has no
rule for `Enum` members, so serializing one raises `TypeError`; every
other constructor serializes.  Mirrors `_create_packet`'s
`json.dumps(packet)` call. -/
def dumps : PyVal → Except PyErr String
  | .none => .ok "null"
  | .bool b => .ok (if b then "true" else "false")
  | .num q => .ok (ratToJson q)
  | .nan => .ok "NaN"
  | .inf neg => .ok (if neg then "-Infinity" else "Infinity")
  | .str s => .ok (jsonQuote s)
  | .list xs =>
    match dumpsElems xs with
    | .error e => .error e
    | .ok parts => .ok ("[" ++ joinComma parts ++ "]")
  | .dict fields =>
    match dumpsFields fields with
    | .error e => .error e
    | .ok parts => .ok ("\x7b" ++ joinComma parts ++ "\x7d")
  | .enum _ => .error .typeError

/-- Serialize array elements left to right, failing at the first bad one. -/
def dumpsElems : List PyVal → Except PyErr (List String)
  | [] => .ok []
  | x :: rest =>
    match dumps x with
    | .error e => .error e
    | .ok s =>
      match dumpsElems rest with
      | .error e => .error e
      | .ok ss => .ok (s :: ss)

/-- Serialize object members in insertion order, failing at the first bad one. -/
def dumpsFields : List (String × PyVal) → Except PyErr (List String)
  | [] => .ok []
  | (k, v) :: rest =>
    match dumps v with
    | .error e => .error e
    | .ok s =>
      match dumpsFields rest with
      | .error e => .error e
      | .ok ss => .ok ((jsonQuote k ++ ": " ++ s) :: ss)

end

/-- The packet dict literal built by `_create_packet`:
`packet = {'type': packet_type, 'timestamp': time.time(), 'data': data}`.
The `type` slot holds whatever value the caller passed — in every call
site of the source that is a raw `PacketType` member. -/
def packetDict (t ts d : PyVal) : PyVal :=
  .dict [("type", t), ("timestamp", ts), ("data", d)]

/-- `NetworkManager._create_packet`: build the packet dict and
`json.dumps(packet).encode()`.  `now` stands for the `time.time()`
reading. -/
def createPacket (packet_type : PacketType) (now : PyVal) (data : PyVal) :
    Except PyErr String :=
  dumps (packetDict (.enum packet_type) now data)

/-- JSON whitespace. -/
def isWsChar (c : Char) : Bool := c = ' ' || c = '\t' || c = '\n' || c = '\r'

/-- Drop leading JSON whitespace. -/
def skipWs : List Char → List Char
  | [] => []
  | c :: rest => if isWsChar c then skipWs rest else c :: rest

/-- ASCII decimal digit. -/
def isDigitChar (c : Char) : Bool := 48 ≤ c.toNat && c.toNat ≤ 57

/-- Value of a decimal digit. -/
def digitVal (c : Char) : Nat := c.toNat - 48

/-- Longest digit prefix and the remainder. -/
def takeDigits : List Char → List Char × List Char
  | [] => ([], [])
  | c :: rest =>
    if isDigitChar c then
      let p := takeDigits rest
      (c :: p.1, p.2)
    else ([], c :: rest)

/-- Numeric value of a digit string. -/
def digitsToNat (ds : List Char) : Nat :=
  ds.foldl (fun a c => a * 10 + digitVal c) 0

/-- Value of a hex digit, if it is one. -/
def hexVal (c : Char) : Option Nat :=
  if 48 ≤ c.toNat && c.toNat ≤ 57 then some (c.toNat - 48)
  else if 97 ≤ c.toNat && c.toNat ≤ 102 then some (c.toNat - 87)
  else if 65 ≤ c.toNat && c.toNat ≤ 70 then some (c.toNat - 55)
  else Option.none

/-- Exponent/fraction assembly for a JSON number: the digits
`intPart.frac e exp` denote `mant * 10^(exp - |frac|)` exactly, as a
rational.  Python parses to binary floats; the rational value is exact,
which is faithful for every integer and for the equality tests the code
performs. -/
def assembleNumber (neg : Bool) (ip : Nat) (frac : List Char) (e : Int)
    (rest : List Char) : Except PyErr (Rat × List Char) :=
  let mant : Int := Int.ofNat (ip * 10 ^ frac.length + digitsToNat frac)
  let mant : Int := if neg then -mant else mant
  let eTot : Int := e - Int.ofNat frac.length
  let q : Rat :=
    if 0 ≤ eTot then ((mant * 10 ^ eTot.toNat : Int) : Rat)
    else (mant : Rat) / ((10 ^ (-eTot).toNat : Nat) : Rat)
  .ok (q, rest)

/-- Optional exponent part of a JSON number. -/
def parseExpPart (neg : Bool) (ip : Nat) (frac : List Char) :
    List Char → Except PyErr (Rat × List Char)
  | c :: rest =>
    if c = 'e' || c = 'E' then
      let sr : Int × List Char :=
        match rest with
        | s :: r2 => if s = '+' then (1, r2) else if s = '-' then (-1, r2) else (1, rest)
        | [] => (1, rest)
      match sr.2 with
      | d :: _ =>
        if isDigitChar d then
          let p := takeDigits sr.2
          assembleNumber neg ip frac (sr.1 * Int.ofNat (digitsToNat p.1)) p.2
        else .error .decodeError
      | [] => .error .decodeError
    else assembleNumber neg ip frac 0 (c :: rest)
  | [] => assembleNumber neg ip frac 0 []

/-- Optional fraction part of a JSON number. -/
def parseFracPart (neg : Bool) (ip : Nat) : List Char → Except PyErr (Rat × List Char)
  | c :: rest =>
    if c = '.' then
      match rest with
      | d :: _ =>
        if isDigitChar d then
          let p := takeDigits rest
          parseExpPart neg ip p.1 p.2
        else .error .decodeError
      | [] => .error .decodeError
    else parseExpPart neg ip [] (c :: rest)
  | [] => parseExpPart neg ip [] []

/-- A JSON number per the grammar `json.loads` uses:
`-?(0|[1-9][0-9]*)(\.[0-9]+)?([eE][+-]?[0-9]+)?` (leading zeros rejected). -/
def parseNumber (cs : List Char) : Except PyErr (Rat × List Char) :=
  let p : Bool × List Char :=
    match cs with
    | c :: r => if c = '-' then (true, r) else (false, cs)
    | [] => (false, cs)
  match p.2 with
  | [] => .error .decodeError
  | c :: rest =>
    if c = '0' then parseFracPart p.1 0 rest
    else if isDigitChar c then
      let ds := takeDigits rest
      parseFracPart p.1 (digitsToNat (c :: ds.1)) ds.2
    else .error .decodeError

/-- Body of a JSON string after the opening quote, per `json.loads` in
strict mode: raw control characters are rejected, the escapes
`\" \\ \/ \b \f \n \r \t \uXXXX` are decoded, and `\uXXXX` surrogate
pairs are combined.  A lone surrogate (which Python would keep as an
unpaired UTF-16 code unit, a value a Lean `Char` cannot hold) is mapped
to U+FFFD; no claim depends on such strings.  The `fuel` argument only
bounds recursion depth; callers pass one more than the input length,
which one emitted character per step can never exhaust. -/
def parseStringBody : Nat → List Char → Except PyErr (List Char × List Char)
  | 0, _ => .error .decodeError
  | _, [] => .error .decodeError
  | Nat.succ fuel, c :: rest =>
    if c = '"' then .ok ([], rest)
    else if c = '\\' then
      match rest with
      | [] => .error .decodeError
      | e :: r2 =>
        if e = '"' || e = '\\' || e = '/' then
          match parseStringBody fuel r2 with
          | .error err => .error err
          | .ok (tail, r) => .ok (e :: tail, r)
        else if e = 'b' || e = 'f' || e = 'n' || e = 'r' || e = 't' then
          let d : Char :=
            if e = 'b' then Char.ofNat 8
            else if e = 'f' then Char.ofNat 12
            else if e = 'n' then Char.ofNat 10
            else if e = 'r' then Char.ofNat 13
            else Char.ofNat 9
          match parseStringBody fuel r2 with
          | .error err => .error err
          | .ok (tail, r) => .ok (d :: tail, r)
        else if e = 'u' then
          match r2 with
          | a :: b :: c2 :: d2 :: r3 =>
            match hexVal a, hexVal b, hexVal c2, hexVal d2 with
            | some x1, some x2, some x3, some x4 =>
              let u := x1 * 4096 + x2 * 256 + x3 * 16 + x4
              if 55296 ≤ u && u < 56320 then
                match r3 with
                | b1 :: b2 :: a2 :: b3 :: c3 :: d3 :: r4 =>
                  match hexVal a2, hexVal b3, hexVal c3, hexVal d3 with
                  | some y1, some y2, some y3, some y4 =>
                    let v := y1 * 4096 + y2 * 256 + y3 * 16 + y4
                    if b1 = '\\' && b2 = 'u' && (56320 ≤ v && v < 57344) then
                      let cp := 65536 + (u - 55296) * 1024 + (v - 56320)
                      match parseStringBody fuel r4 with
                      | .error err => .error err
                      | .ok (tail, r) => .ok (Char.ofNat cp :: tail, r)
                    else
                      match parseStringBody fuel (b1 :: b2 :: a2 :: b3 :: c3 :: d3 :: r4) with
                      | .error err => .error err
                      | .ok (tail, r) => .ok (Char.ofNat 65533 :: tail, r)
                  | _, _, _, _ =>
                    match parseStringBody fuel (b1 :: b2 :: a2 :: b3 :: c3 :: d3 :: r4) with
                    | .error err => .error err
                    | .ok (tail, r) => .ok (Char.ofNat 65533 :: tail, r)
                | _ =>
                  match parseStringBody fuel r3 with
                  | .error err => .error err
                  | .ok (tail, r) => .ok (Char.ofNat 65533 :: tail, r)
              else
                match parseStringBody fuel r3 with
                | .error err => .error err
                | .ok (tail, r) => .ok (Char.ofNat u :: tail, r)
            | _, _, _, _ => .error .decodeError
          | _ => .error .decodeError
        else .error .decodeError
    else if c.toNat < 32 then .error .decodeError
    else
      match parseStringBody fuel rest with
      | .error err => .error err
      | .ok (tail, r) => .ok (c :: tail, r)

mutual

/-- One JSON value (leading whitespace allowed), per `json.loads`:
strings, objects, arrays, `true`/`false`/`null`, plus the non-standard
`NaN`, `Infinity` and `-Infinity` that Python's decoder accepts by
default, and numbers.  Anything else is a decode error.  `fuel` bounds
the recursion; `loads` supplies more than any input can consume. -/
def parseValue : Nat → List Char → Except PyErr (PyVal × List Char)
  | 0, _ => .error .decodeError
  | Nat.succ fuel, cs =>
    match skipWs cs with
    | [] => .error .decodeError
    | c :: rest =>
      if c = '"' then
        match parseStringBody (rest.length + 1) rest with
        | .error err => .error err
        | .ok (content, r) => .ok (.str (String.mk content), r)
      else if c = Char.ofNat 123 then
        match parseMembers fuel rest with
        | .error err => .error err
        | .ok (fs, r) =>
          .ok (.dict (fs.foldl (fun acc kv => ainsert acc kv.1 kv.2) []), r)
      else if c = '[' then
        match parseElems fuel rest with
        | .error err => .error err
        | .ok (xs, r) => .ok (.list xs, r)
      else if c = 't' then
        match rest with
        | 'r' :: 'u' :: 'e' :: r => .ok (.bool true, r)
        | _ => .error .decodeError
      else if c = 'f' then
        match rest with
        | 'a' :: 'l' :: 's' :: 'e' :: r => .ok (.bool false, r)
        | _ => .error .decodeError
      else if c = 'n' then
        match rest with
        | 'u' :: 'l' :: 'l' :: r => .ok (.none, r)
        | _ => .error .decodeError
      else if c = 'N' then
        match rest with
        | 'a' :: 'N' :: r => .ok (.nan, r)
        | _ => .error .decodeError
      else if c = 'I' then
        match rest with
        | 'n' :: 'f' :: 'i' :: 'n' :: 'i' :: 't' :: 'y' :: r => .ok (.inf false, r)
        | _ => .error .decodeError
      else if c = '-' then
        match rest with
        | 'I' :: 'n' :: 'f' :: 'i' :: 'n' :: 'i' :: 't' :: 'y' :: r => .ok (.inf true, r)
        | _ =>
          match parseNumber (c :: rest) with
          | .error err => .error err
          | .ok (q, r) => .ok (.num q, r)
      else if isDigitChar c then
        match parseNumber (c :: rest) with
        | .error err => .error err
        | .ok (q, r) => .ok (.num q, r)
      else .error .decodeError

/-- Array elements after the opening bracket. -/
def parseElems : Nat → List Char → Except PyErr (List PyVal × List Char)
  | 0, _ => .error .decodeError
  | Nat.succ fuel, cs =>
    match skipWs cs with
    | [] => .error .decodeError
    | c :: rest =>
      if c = ']' then .ok ([], rest)
      else
        match parseValue fuel cs with
        | .error err => .error err
        | .ok (v, r1) =>
          match parseElemsTail fuel r1 with
          | .error err => .error err
          | .ok (vs, r2) => .ok (v :: vs, r2)

/-- After one array element: a comma and more elements, or the close. -/
def parseElemsTail : Nat → List Char → Except PyErr (List PyVal × List Char)
  | 0, _ => .error .decodeError
  | Nat.succ fuel, cs =>
    match skipWs cs with
    | [] => .error .decodeError
    | c :: rest =>
      if c = ']' then .ok ([], rest)
      else if c = ',' then
        match parseValue fuel rest with
        | .error err => .error err
        | .ok (v, r1) =>
          match parseElemsTail fuel r1 with
          | .error err => .error err
          | .ok (vs, r2) => .ok (v :: vs, r2)
      else .error .decodeError

/-- Object members after the opening brace, in source order.  `parseValue`
folds them into a dict afterwards, so a duplicated key keeps its first
position and last value exactly as a Python dict built by repeated
assignment does. -/
def parseMembers : Nat → List Char → Except PyErr (List (String × PyVal) × List Char)
  | 0, _ => .error .decodeError
  | Nat.succ fuel, cs =>
    match skipWs cs with
    | [] => .error .decodeError
    | c :: rest =>
      if c = Char.ofNat 125 then .ok ([], rest)
      else if c = '"' then
        match parseStringBody (rest.length + 1) rest with
        | .error err => .error err
        | .ok (key, r1) =>
          match skipWs r1 with
          | ':' :: r2 =>
            match parseValue fuel r2 with
            | .error err => .error err
            | .ok (v, r3) =>
              match parseMembersTail fuel r3 with
              | .error err => .error err
              | .ok (fs, r4) => .ok ((String.mk key, v) :: fs, r4)
          | _ => .error .decodeError
      else .error .decodeError

/-- After one object member: a comma and more members, or the close. -/
def parseMembersTail : Nat → List Char → Except PyErr (List (String × PyVal) × List Char)
  | 0, _ => .error .decodeError
  | Nat.succ fuel, cs =>
    match skipWs cs with
    | [] => .error .decodeError
    | c :: rest =>
      if c = Char.ofNat 125 then .ok ([], rest)
      else if c = ',' then
        match skipWs rest with
        | '"' :: r1 =>
          match parseStringBody (r1.length + 1) r1 with
          | .error err => .error err
          | .ok (key, r2) =>
            match skipWs r2 with
            | ':' :: r3 =>
              match parseValue fuel r3 with
              | .error err => .error err
              | .ok (v, r4) =>
                match parseMembersTail fuel r4 with
                | .error err => .error err
                | .ok (fs, r5) => .ok ((String.mk key, v) :: fs, r5)
            | _ => .error .decodeError
        | _ => .error .decodeError
      else .error .decodeError

end

/-- `json.loads`: parse exactly one JSON document, allowing surrounding
whitespace; anything left over is the `Extra data` decode error.  The
fuel `4 * n + 64` exceeds what any input of length `n` can consume (each
fueled call either consumes a character or hands off to a sub-parse that
does). -/
def loads (s : String) : Except PyErr PyVal :=
  let cs := s.toList
  match parseValue (4 * cs.length + 64) cs with
  | .error err => .error err
  | .ok (v, rest) => if skipWs rest = [] then .ok v else .error .decodeError

/-- `NetworkManager._parse_packet`: `json.loads(data.decode())`.  The
UTF-8 decode step is absorbed into the `String` datagram type.  A raise
of `json.JSONDecodeError` is the `Except.error` result; the server and
client loops catch it at their `except Exception` boundary. -/
def parsePacket (data : String) : Except PyErr PyVal :=
  loads data

/-- Host-side mutable state of `NetworkManager` while serving:
`self.clients` (formatted sender address → derived player id, insertion
ordered) and `self.players` (player id → stored snapshot, which is
whatever Python value the peer's packets carried). -/
structure ServerState where
  clients : List (String × String)
  players : List (String × PyVal)

/-- `NetworkManager.__init__`: both registries empty. -/
def initServer : ServerState := ⟨[], []⟩

/-- The body of `_server_loop` for one received datagram, after
`_parse_packet` succeeded, as a function of the parsed packet value.

* `pid` abstracts `hashlib.md5(f"{addr}".encode()).hexdigest()[:8]`, the
  deterministic derivation of a player id from the formatted address.
* `raw` is the received datagram (`data`), re-sent verbatim by the
  `PLAYER_UPDATE` fan-out.
* `now` is the `time.time()` reading used for the `WORLD_STATE` reply.
* The result is the new state plus the list of `sendto` calls performed,
  as `(bytes, destination)` pairs in order.

Statements whose Python evaluation raises — `packet['type']` on a
non-dict or without the key, `packet['data']` when absent,
`self.players[player_id]` when absent, `.update` on or with a non-dict,
and the `TypeError` that `_create_packet` raises inside the `CONNECT`
branch — are caught by the loop's `except Exception`, so the step keeps
every mutation already performed and does nothing further.  (A
`dict.update` whose argument is a list of pairs, which Python would
accept, is modelled as a failure; no JSON-decoded packet can reach that
shape through the enum-guarded dispatch, and no claim depends on it.) -/
def hostHandle (pid : String → String) (st : ServerState) (addr : String)
    (raw : String) (now : PyVal) (pkt : PyVal) :
    ServerState × List (String × String) :=
  match pkt with
  | .dict fields =>
    match alookup fields "type" with
    | Option.none => (st, [])
    | some t =>
      if isType t .CONNECT then
        let player_id := pid addr
        let clients1 := ainsert st.clients addr player_id
        match alookup fields "data" with
        | Option.none => ({ clients := clients1, players := st.players }, [])
        | some d =>
          let players1 := ainsert st.players player_id d
          match createPacket .WORLD_STATE now (.dict players1) with
          | .error _ => ({ clients := clients1, players := players1 }, [])
          | .ok world => ({ clients := clients1, players := players1 }, [(world, addr)])
      else if isType t .PLAYER_UPDATE then
        match alookup st.clients addr with
        | Option.none => (st, [])
        | some player_id =>
          match alookup st.players player_id, alookup fields "data" with
          | some (.dict s), some (.dict u) =>
            let players1 := ainsert st.players player_id (.dict (dictUpdate s u))
            let sends := (st.clients.filter fun c => c.1 ≠ addr).map fun c => (raw, c.1)
            ({ clients := st.clients, players := players1 }, sends)
          | _, _ => (st, [])
      else if isType t .DISCONNECT then
        match alookup st.clients addr with
        | Option.none => (st, [])
        | some player_id =>
          let clients1 := aerase st.clients addr
          match alookup st.players player_id with
          | Option.none => ({ clients := clients1, players := st.players }, [])
          | some _ =>
            ({ clients := clients1, players := aerase st.players player_id }, [])
      else (st, [])
  | _ => (st, [])

/-- One full iteration of `_server_loop` on a received datagram:
`_parse_packet` the bytes, dispatch on the parsed value; any decode
failure is caught by the `except Exception` handler, leaving the state
unchanged and sending nothing. -/
def serverStep (pid : String → String) (st : ServerState) (addr : String)
    (raw : String) (now : PyVal) : ServerState × List (String × String) :=
  match parsePacket raw with
  | .error _ => (st, [])
  | .ok pkt => hostHandle pid st addr raw now pkt

/-- Python `==` restricted to the hashable values that can serve as dict
keys, as used by the client-side registry that `_handle_network_message`
indexes with the `player_id` taken out of a payload.  Booleans compare
numerically (`True == 1`), `NaN` is unequal to everything including
itself.  Unhashable values (lists, dicts), which Python would reject at
the lookup itself, simply compare unequal here; no claim exercises
them. -/
def pyKeyEq : PyVal → PyVal → Bool
  | .str a, .str b => a = b
  | .num a, .num b => a = b
  | .bool a, .bool b => a = b
  | .bool a, .num b => (if a then (1 : Rat) else 0) = b
  | .num a, .bool b => a = (if b then (1 : Rat) else 0)
  | .none, .none => true
  | .enum a, .enum b => a = b
  | .inf a, .inf b => a = b
  | _, _ => false

/-- First-match lookup in the client-side registry keyed by Python values. -/
def plookup : List (PyVal × PyVal) → PyVal → Option PyVal
  | [], _ => Option.none
  | (k, v) :: rest, key => if pyKeyEq k key then some v else plookup rest key

/-- `d[key] = val` on the client-side registry. -/
def pinsert : List (PyVal × PyVal) → PyVal → PyVal → List (PyVal × PyVal)
  | [], key, val => [(key, val)]
  | (k, v) :: rest, key, val =>
    if pyKeyEq k key then (key, val) :: rest else (k, v) :: pinsert rest key val

/-- Consumer-side state that `GameEngine._handle_network_message` can
touch: the engine's local player object (`self.player`, opaque here) and
the client-side registry view `self.network.players`. -/
structure EngineState where
  player : Option PyVal
  netPlayers : List (PyVal × PyVal)

/-- The `WORLD_STATE` merge loop of `_handle_network_message`:
`for player_id, player_data in msg['data'].items()`, inserting unknown
identities and `dict.update`-merging known ones.  An `.update` on or
with a non-dict raises mid-loop; the entries already merged keep their
new values and the rest of the loop is abandoned (the raise propagates
out of the handler; it mutates nothing further). -/
def wsMerge : List (PyVal × PyVal) → List (String × PyVal) → List (PyVal × PyVal)
  | reg, [] => reg
  | reg, (k, v) :: rest =>
    match plookup reg (.str k) with
    | Option.none => wsMerge (pinsert reg (.str k) v) rest
    | some stored =>
      match stored, v with
      | .dict s, .dict u => wsMerge (pinsert reg (.str k) (.dict (dictUpdate s u))) rest
      | _, _ => reg

/-- The new registry contents after `_handle_network_message` processes
one drained message: `WORLD_STATE` merges the carried registry snapshot
entry by entry; `PLAYER_UPDATE` upserts under the `player_id` taken from
the payload when that value is truthy; every other (or malformed)
message leaves the registry alone. -/
def netMsgRegistry (reg : List (PyVal × PyVal)) (msg : PyVal) :
    List (PyVal × PyVal) :=
  match msg with
  | .dict fields =>
    match alookup fields "type" with
    | Option.none => reg
    | some t =>
      if isType t .WORLD_STATE then
        match alookup fields "data" with
        | some (.dict entries) => wsMerge reg entries
        | _ => reg
      else if isType t .PLAYER_UPDATE then
        match alookup fields "data" with
        | some (.dict pd) =>
          match alookup pd "player_id" with
          | some pidv =>
            if truthy pidv then pinsert reg pidv (.dict pd) else reg
          | Option.none => reg
        | _ => reg
      else reg
  | _ => reg

/-- `GameEngine._handle_network_message`: the method reads and writes
only `self.network.players`; the local player object `self.player` does
not occur in its body. -/
def handleNetMsg (st : EngineState) (msg : PyVal) : EngineState :=
  { player := st.player, netPlayers := netMsgRegistry st.netPlayers msg }

/-- Modelled from the spec: "Message Envelope: {type, timestamp, payload};
`type` is one of a fixed enumeration" — a datagram is envelope-shaped
when it decodes to an object carrying the three envelope slots.  This
definition follows the spec's words (not the source, which never
validates shape) and exists to compare the source's decoder against the
spec's notion of a well-formed encoded envelope. -/
def specEnvelopeShaped (s : String) : Bool :=
  match parsePacket s with
  | .ok (.dict fields) =>
    ahasKey fields "type" && ahasKey fields "timestamp" && ahasKey fields "data"
  | _ => false

/-- C1: the claim states `decode(encode(E)) == E` for every valid
envelope.  On this code no envelope is ever encoded: `_create_packet`
places the raw `PacketType` member into the dict it passes to
`json.dumps`, whose default encoder raises `TypeError` on `Enum`
members, so encoding fails identically for every type tag, timestamp
and payload and the round-trip property holds vacuously at best — while
the matching dispatch `packet['type'] == PacketType.X` on the decode
side compares a JSON-decoded tag against an `Enum` member and can never
be true.  This theorem evaluates the encoder at every input. -/
theorem c1_encode_always_raises (t : PacketType) (now data : PyVal) :
    createPacket t now data = .error .typeError := by
  simp [createPacket, packetDict, dumps, dumpsFields]

/-- C2 counterexample: the claim says `decode` yields a `DecodingError`
on every byte string that is not a well-formed encoded envelope.  The
byte string `"5"` is not envelope-shaped, yet `_parse_packet` (plain
`json.loads`) returns the value `5` successfully — the decoder performs
no envelope validation at all. -/
theorem c2_nonenvelope_decodes :
    parsePacket "5" = .ok (.num 5) ∧ specEnvelopeShaped "5" = false :=
  ⟨rfl, rfl⟩

/-- C2 (amended): on every byte string that is not valid JSON,
`_parse_packet` yields a decode error rather than a value, and the
`except Exception` boundary of `_server_loop` catches it: the step
leaves the host state unchanged and sends nothing, so no exception
propagates out of the loop. -/
theorem c2_decode_failure_dropped (pid : String → String) (st : ServerState)
    (addr raw : String) (now : PyVal) (e : PyErr)
    (h : parsePacket raw = .error e) :
    serverStep pid st addr raw now = (st, []) := by
  simp [serverStep, h]

/-- Witness for `c2_decode_failure_dropped` at the malformed datagram
`"garbage"`. -/
theorem c2_decode_failure_dropped_witness :
    serverStep (fun a => a) initServer "A" "garbage" (.num 0) = (initServer, []) :=
  c2_decode_failure_dropped (fun a => a) initServer "A" "garbage" (.num 0)
    .decodeError rfl

/-- An envelope whose payload alone is far larger than `PACKET_SIZE`
(1024): a 1200-character string field. -/
def oversizedPayload : PyVal :=
  .dict [("blob", .str (String.mk (List.replicate 1200 'a')))]

/-- C3: the claim says `encode` fails with an `EncodingError` when the
serialized payload exceeds the maximum datagram size, with a
reject-and-drop policy.  The code has no size check anywhere —
`PACKET_SIZE` is used only as the `recvfrom` buffer length — and
`_create_packet` raises `TypeError` for every envelope, oversized or
not, because of the unserializable enum tag.  Evaluating the encoder at
an envelope whose payload exceeds the bound shows the failure is the
unconditional `TypeError`, not a size-conditional encoding error. -/
theorem c3_oversized_hits_type_error (now : PyVal) :
    createPacket .PLAYER_UPDATE now oversizedPayload = .error .typeError := by
  simp [createPacket, packetDict, dumps, dumpsFields]

theorem alookup_isSome_of_mem {β : Type} {d : List (String × β)} {k : String} {v : β}
    (h : (k, v) ∈ d) : (alookup d k).isSome := by
  induction d with
  | nil => simp at h
  | cons hd tl ih =>
    obtain ⟨k0, v0⟩ := hd
    by_cases hk : k0 = k
    · simp [alookup, hk]
    · rcases List.mem_cons.1 h with h' | h'
      · exact absurd (congrArg Prod.fst h').symm hk
      · simpa [alookup, hk] using ih h'

/-- C4: a `PLAYER_UPDATE` from a registered peer merges the carried
field map into the stored snapshot by `dict.update`: every field named
in the update maps to the incoming value, every other field keeps its
stored value. -/
theorem c4_partial_merge (pid : String → String) (st : ServerState) (addr p raw : String)
    (now ts : PyVal) (S U : List (String × PyVal))
    (hreg : alookup st.clients addr = some p)
    (hsnap : alookup st.players p = some (.dict S))
    (hU : (U.map Prod.fst).Nodup) :
    ∃ S1, alookup ((hostHandle pid st addr raw now
          (packetDict (.enum .PLAYER_UPDATE) ts (.dict U))).1).players p
        = some (.dict S1)
      ∧ ∀ k, alookup S1 k =
          match alookup U k with
          | some v => some v
          | Option.none => alookup S k := by
  refine ⟨dictUpdate S U, ?_, ?_⟩
  · simp [hostHandle, packetDict, alookup, isType, hreg, hsnap, alookup_ainsert_self]
  · exact alookup_dictUpdate S U hU

/-- Witness for `c4_partial_merge` at the spec's own example: stored
snapshot `x:1, y:2`, update `x:5`. -/
theorem c4_partial_merge_witness :
    ∃ S1, alookup ((hostHandle (fun a => a)
          ⟨[("A", "p")], [("p", .dict [("x", .num 1), ("y", .num 2)])]⟩
          "A" "" (.num 0) (packetDict (.enum .PLAYER_UPDATE) (.num 0)
            (.dict [("x", .num 5)]))).1).players "p"
        = some (.dict S1)
      ∧ ∀ k, alookup S1 k =
          match alookup [("x", PyVal.num 5)] k with
          | some v => some v
          | Option.none => alookup [("x", PyVal.num 1), ("y", PyVal.num 2)] k :=
  c4_partial_merge (fun a => a)
    ⟨[("A", "p")], [("p", .dict [("x", .num 1), ("y", .num 2)])]⟩
    "A" "p" "" (.num 0) (.num 0) [("x", .num 1), ("y", .num 2)] [("x", .num 5)]
    rfl rfl (by simp)

/-- C5: with exactly the three distinct peers `A`, `B`, `C` registered,
a `PLAYER_UPDATE` received from `A` makes the host resend the original
datagram bytes to exactly `B` then `C` — never back to `A`, once each. -/
theorem c5_fanout_exact (pid : String → String) (A iA B iB C iC raw : String)
    (players : List (String × PyVal)) (S U : List (String × PyVal)) (now ts : PyVal)
    (hAB : A ≠ B) (hAC : A ≠ C) (hBC : B ≠ C)
    (hsnap : alookup players iA = some (.dict S)) :
    (hostHandle pid ⟨[(A, iA), (B, iB), (C, iC)], players⟩ A raw now
        (packetDict (.enum .PLAYER_UPDATE) ts (.dict U))).2 = [(raw, B), (raw, C)] := by
  simp [hostHandle, packetDict, alookup, isType, hsnap, List.filter,
    Ne.symm hAB, Ne.symm hAC]

/-- Witness for `c5_fanout_exact` at three concrete peers. -/
theorem c5_fanout_exact_witness :
    (hostHandle (fun a => a)
        ⟨[("A", "iA"), ("B", "iB"), ("C", "iC")], [("iA", .dict [])]⟩
        "A" "upd" (.num 0) (packetDict (.enum .PLAYER_UPDATE) (.num 0) (.dict []))).2
      = [("upd", "B"), ("upd", "C")] :=
  c5_fanout_exact (fun a => a) "A" "iA" "B" "iB" "C" "iC" "upd"
    [("iA", .dict [])] [] [] (.num 0) (.num 0)
    (by decide) (by decide) (by decide) rfl

/-- C6: a `PLAYER_UPDATE` from a sender with no registered identity is
dropped silently: the `if addr in self.clients` guard fails, so the
whole state (player registry and client map) is unchanged and nothing is
sent to anyone. -/
theorem c6_unregistered_update_dropped (pid : String → String) (st : ServerState)
    (addr raw : String) (now ts d : PyVal)
    (h : alookup st.clients addr = Option.none) :
    hostHandle pid st addr raw now (packetDict (.enum .PLAYER_UPDATE) ts d) = (st, []) := by
  simp [hostHandle, packetDict, alookup, isType, h]

/-- Witness for `c6_unregistered_update_dropped` on the empty host. -/
theorem c6_unregistered_update_dropped_witness :
    hostHandle (fun a => a) initServer "X" "u" (.num 0)
        (packetDict (.enum .PLAYER_UPDATE) (.num 0) (.dict [("x", .num 1)]))
      = (initServer, []) :=
  c6_unregistered_update_dropped (fun a => a) initServer "X" "u" (.num 0) (.num 0)
    (.dict [("x", .num 1)]) rfl

/-- C7: processing a `CONNECT` from an address and then a `DISCONNECT`
from the same address leaves the derived identity absent from both the
player registry and the client map (provided no other registered address
stores that same identity), and the address itself unregistered; and a
`DISCONNECT` for an address with no registered identity is a no-op —
state unchanged, nothing sent, never an error. -/
theorem c7_connect_then_disconnect :
    (∀ (pid : String → String) (st : ServerState) (addr raw1 raw2 : String)
        (now1 now2 ts1 ts2 d1 d2 : PyVal),
      (∀ q ∈ st.clients, q.2 = pid addr → q.1 = addr) →
      ((¬ ∃ s, (pid addr, s) ∈
          ((hostHandle pid
              ((hostHandle pid st addr raw1 now1
                (packetDict (.enum .CONNECT) ts1 d1)).1)
              addr raw2 now2 (packetDict (.enum .DISCONNECT) ts2 d2)).1).players)
        ∧ (¬ ∃ a, (a, pid addr) ∈
          ((hostHandle pid
              ((hostHandle pid st addr raw1 now1
                (packetDict (.enum .CONNECT) ts1 d1)).1)
              addr raw2 now2 (packetDict (.enum .DISCONNECT) ts2 d2)).1).clients)
        ∧ alookup ((hostHandle pid
              ((hostHandle pid st addr raw1 now1
                (packetDict (.enum .CONNECT) ts1 d1)).1)
              addr raw2 now2 (packetDict (.enum .DISCONNECT) ts2 d2)).1).clients addr
            = Option.none))
    ∧ (∀ (pid : String → String) (st : ServerState) (addr raw : String)
        (now ts d : PyVal),
        alookup st.clients addr = Option.none →
        hostHandle pid st addr raw now (packetDict (.enum .DISCONNECT) ts d) = (st, [])) := by
  constructor
  · intro pid st addr raw1 raw2 now1 now2 ts1 ts2 d1 d2 hshare
    have hst1 : (hostHandle pid st addr raw1 now1
        (packetDict (.enum .CONNECT) ts1 d1)).1
        = ⟨ainsert st.clients addr (pid addr),
           ainsert st.players (pid addr) d1⟩ := by
      cases hcp : createPacket .WORLD_STATE now1
          (.dict (ainsert st.players (pid addr) d1)) with
      | error e => simp [hostHandle, packetDict, alookup, isType, hcp]
      | ok w => simp [hostHandle, packetDict, alookup, isType, hcp]
    rw [hst1]
    have hst2 : (hostHandle pid
        (⟨ainsert st.clients addr (pid addr),
          ainsert st.players (pid addr) d1⟩ : ServerState)
        addr raw2 now2 (packetDict (.enum .DISCONNECT) ts2 d2)).1
        = ⟨aerase (ainsert st.clients addr (pid addr)) addr,
           aerase (ainsert st.players (pid addr) d1) (pid addr)⟩ := by
      simp [hostHandle, packetDict, alookup, isType, alookup_ainsert_self]
    rw [hst2]
    refine ⟨?_, ?_, ?_⟩
    · rintro ⟨s, hs⟩
      exact (mem_aerase.1 hs).2 rfl
    · rintro ⟨a, ha⟩
      obtain ⟨hmem, hne⟩ := mem_aerase.1 ha
      rcases mem_ainsert hmem with h | h
      · exact hne (by simpa using congrArg Prod.fst h)
      · exact hne (hshare _ h rfl)
    · exact alookup_aerase_self _ _
  · intro pid st addr raw now ts d h
    simp [hostHandle, packetDict, alookup, isType, h]

/-- Witness for `c7_connect_then_disconnect`: a peer connects to the
empty host and disconnects; a disconnect from an unknown address is a
no-op. -/
theorem c7_connect_then_disconnect_witness :
    (¬ ∃ s, ("A", s) ∈ ((hostHandle (fun a => a)
        ((hostHandle (fun a => a) initServer "A" "" (.num 0)
          (packetDict (.enum .CONNECT) (.num 0) (.dict []))).1)
        "A" "" (.num 0) (packetDict (.enum .DISCONNECT) (.num 0) (.dict []))).1).players)
    ∧ hostHandle (fun a => a) initServer "B" "" (.num 0)
        (packetDict (.enum .DISCONNECT) (.num 0) (.dict [])) = (initServer, []) :=
  ⟨(c7_connect_then_disconnect.1 (fun a => a) initServer "A" "" "" (.num 0) (.num 0)
      (.num 0) (.num 0) (.dict []) (.dict [])
      (fun q hq => absurd hq (List.not_mem_nil q))).1,
   c7_connect_then_disconnect.2 (fun a => a) initServer "B" "" (.num 0) (.num 0)
      (.dict []) rfl⟩

/-- A host state in which peer `A` registered the way the code's own
client does: `connect_client` sends `CONNECT` with payload
`{"name": "Player"}`, so the stored snapshot starts with a `name`
field. -/
def c8Host : ServerState :=
  ⟨[("A", "p")], [("p", .dict [("name", .str "Player")])]⟩

/-- The `PLAYER_UPDATE` datagram of the C8 scenario, carrying
`{x:10, y:20}`. -/
def c8Update : PyVal :=
  packetDict (.enum .PLAYER_UPDATE) (.num 0) (.dict [("x", .num 10), ("y", .num 20)])

/-- C8 counterexample: the claim says that after three consecutive
`{x:10,y:20}` updates the stored snapshot is *exactly* the mapping
`{x:10,y:20}`.  For a peer whose registration stored the code's own
`CONNECT` payload `{"name":"Player"}`, the final snapshot still maps
`name`, so it is not exactly the two-field mapping. -/
theorem c8_connect_payload_persists :
    alookup ((hostHandle (fun a => a) ((hostHandle (fun a => a)
          ((hostHandle (fun a => a) c8Host "A" "" (.num 0) c8Update).1)
          "A" "" (.num 0) c8Update).1) "A" "" (.num 0) c8Update).1).players "p"
      = some (.dict [("name", .str "Player"), ("x", .num 10), ("y", .num 20)])
    ∧ alookup [("name", PyVal.str "Player"), ("x", PyVal.num 10), ("y", PyVal.num 20)]
        "name" = some (.str "Player") :=
  ⟨rfl, rfl⟩

/-- C8 (amended): three consecutive `{x:10,y:20}` updates from a
registered peer leave the stored snapshot equal to the pre-update
snapshot overwritten at `x` and `y` — `x ↦ 10`, `y ↦ 20`, every other
field retained — with nothing accumulated or duplicated: the second and
third updates change nothing beyond the first, and when the pre-update
snapshot holds no fields besides `x` and `y` the result is exactly
`{x:10,y:20}`. -/
theorem c8_triple_update_idempotent (pid : String → String) (st : ServerState)
    (addr p raw1 raw2 raw3 : String) (now1 now2 now3 ts1 ts2 ts3 : PyVal)
    (S : List (String × PyVal))
    (hreg : alookup st.clients addr = some p)
    (hsnap : alookup st.players p = some (.dict S)) :
    alookup ((hostHandle pid ((hostHandle pid ((hostHandle pid st addr raw1 now1
          (packetDict (.enum .PLAYER_UPDATE) ts1
            (.dict [("x", .num 10), ("y", .num 20)]))).1) addr raw2 now2
          (packetDict (.enum .PLAYER_UPDATE) ts2
            (.dict [("x", .num 10), ("y", .num 20)]))).1) addr raw3 now3
          (packetDict (.enum .PLAYER_UPDATE) ts3
            (.dict [("x", .num 10), ("y", .num 20)]))).1).players p
        = some (.dict (dictUpdate S [("x", .num 10), ("y", .num 20)]))
      ∧ alookup (dictUpdate S [("x", .num 10), ("y", .num 20)]) "x" = some (.num 10)
      ∧ alookup (dictUpdate S [("x", .num 10), ("y", .num 20)]) "y" = some (.num 20)
      ∧ ∀ k, k ≠ "x" → k ≠ "y" →
          alookup (dictUpdate S [("x", .num 10), ("y", .num 20)]) k = alookup S k := by
  set xy : List (String × PyVal) := [("x", .num 10), ("y", .num 20)] with hxy
  have hS1 : dictUpdate S xy = ainsert (ainsert S "x" (.num 10)) "y" (.num 20) := rfl
  have hlx : alookup (dictUpdate S xy) "x" = some (.num 10) := by
    rw [hS1, alookup_ainsert_ne _ _ _ _ (by decide), alookup_ainsert_self]
  have hly : alookup (dictUpdate S xy) "y" = some (.num 20) := by
    rw [hS1, alookup_ainsert_self]
  have hidem : dictUpdate (dictUpdate S xy) xy = dictUpdate S xy := by
    have h1 : dictUpdate (dictUpdate S xy) xy
        = ainsert (ainsert (dictUpdate S xy) "x" (.num 10)) "y" (.num 20) := rfl
    rw [h1, ainsert_no_change hlx, hS1,
      ainsert_no_change (alookup_ainsert_self _ _ _)]
  have step : ∀ (st' : ServerState) (raw : String) (now ts : PyVal)
      (S' : List (String × PyVal)),
      alookup st'.clients addr = some p →
      alookup st'.players p = some (.dict S') →
      (hostHandle pid st' addr raw now
          (packetDict (.enum .PLAYER_UPDATE) ts (.dict xy))).1
        = ⟨st'.clients, ainsert st'.players p (.dict (dictUpdate S' xy))⟩ := by
    intro st' raw now ts S' h1 h2
    simp [hostHandle, packetDict, alookup, isType, h1, h2]
  rw [step st raw1 now1 ts1 S hreg hsnap]
  rw [step ⟨st.clients, ainsert st.players p (.dict (dictUpdate S xy))⟩ raw2 now2 ts2
    (dictUpdate S xy) hreg (alookup_ainsert_self _ _ _)]
  rw [hidem, ainsert_no_change (alookup_ainsert_self _ _ _)]
  rw [step ⟨st.clients, ainsert st.players p (.dict (dictUpdate S xy))⟩ raw3 now3 ts3
    (dictUpdate S xy) hreg (alookup_ainsert_self _ _ _)]
  rw [hidem, ainsert_no_change (alookup_ainsert_self _ _ _)]
  refine ⟨alookup_ainsert_self _ _ _, hlx, hly, ?_⟩
  intro k hkx hky
  rw [hS1, alookup_ainsert_ne _ _ _ _ hky, alookup_ainsert_ne _ _ _ _ hkx]

/-- Witness for `c8_triple_update_idempotent` at a peer registered with
an empty snapshot, for which the final snapshot is exactly
`{x:10, y:20}`. -/
theorem c8_triple_update_idempotent_witness :
    alookup ((hostHandle (fun a => a) ((hostHandle (fun a => a) ((hostHandle (fun a => a)
          (⟨[("A", "p")], [("p", .dict [])]⟩ : ServerState) "A" "" (.num 0)
          (packetDict (.enum .PLAYER_UPDATE) (.num 0)
            (.dict [("x", .num 10), ("y", .num 20)]))).1) "A" "" (.num 0)
          (packetDict (.enum .PLAYER_UPDATE) (.num 0)
            (.dict [("x", .num 10), ("y", .num 20)]))).1) "A" "" (.num 0)
          (packetDict (.enum .PLAYER_UPDATE) (.num 0)
            (.dict [("x", .num 10), ("y", .num 20)]))).1).players "p"
        = some (.dict (dictUpdate [] [("x", .num 10), ("y", .num 20)]))
      ∧ alookup (dictUpdate [] [("x", .num 10), ("y", .num 20)]) "x" = some (.num 10)
      ∧ alookup (dictUpdate [] [("x", .num 10), ("y", .num 20)]) "y" = some (.num 20)
      ∧ ∀ k, k ≠ "x" → k ≠ "y" →
          alookup (dictUpdate [] [("x", .num 10), ("y", .num 20)]) k = alookup [] k :=
  c8_triple_update_idempotent (fun a => a) ⟨[("A", "p")], [("p", .dict [])]⟩
    "A" "p" "" "" "" (.num 0) (.num 0) (.num 0) (.num 0) (.num 0) (.num 0) []
    rfl rfl

/-- A consumer-side registry holding one entry under identity `"k0"` —
the entry belonging to the local player, whichever identity the host
derived for it. -/
def c9Reg : List (PyVal × PyVal) := [(.str "k0", .dict [("x", .num 1)])]

/-- An inbound `PLAYER_UPDATE` whose payload names `player_id` `"k0"`. -/
def c9Msg : PyVal :=
  packetDict (.enum .PLAYER_UPDATE) (.num 0)
    (.dict [("player_id", .str "k0"), ("x", .num 99)])

/-- C9 counterexample: the claim says the local player's own registry
entry is never overwritten by an inbound message.
`_handle_network_message` keys its upsert purely by the `player_id`
inside the payload, with no exclusion of the local player's identity: an
inbound `PLAYER_UPDATE` naming the local entry's identity replaces that
registry entry. -/
theorem c9_inbound_overwrites_entry :
    plookup ((handleNetMsg ⟨some (.dict []), c9Reg⟩ c9Msg).netPlayers) (.str "k0")
      ≠ plookup c9Reg (.str "k0") := by
  intro h
  have h1 : plookup ((handleNetMsg ⟨some (.dict []), c9Reg⟩ c9Msg).netPlayers) (.str "k0")
      = some (.dict [("player_id", .str "k0"), ("x", .num 99)]) := rfl
  have h2 : plookup c9Reg (.str "k0") = some (.dict [("x", .num 1)]) := rfl
  rw [h1, h2] at h
  simp at h

/-- C9 (amended): inbound processing never touches the engine's local
player object — `_handle_network_message` reads and writes only the
`network.players` registry view, so `self.player` is unchanged by every
inbound message — but registry entries, including the one stored under
the local player's own identity, can be overwritten by inbound
`WORLD_STATE` merges and `PLAYER_UPDATE` upserts. -/
theorem c9_player_object_untouched (st : EngineState) (msg : PyVal) :
    (handleNetMsg st msg).player = st.player := rfl

/-- A `CONNECT` envelope with no `data` slot: the host registers the
sender in the client map, then `packet['data']` raises `KeyError` before
the snapshot is stored. -/
def c10Pkt : PyVal := .dict [("type", .enum .CONNECT)]

/-- C10 counterexample: the claim says every step of the receive loop
preserves "identities stored in the client map = keys of the player
registry", assuming only an injective identity derivation.  From the
initial empty state — where the property holds and any derivation is
injective on the (empty) registered set — a `CONNECT` envelope lacking
a `data` field registers the sender's identity in the client map but
aborts (`KeyError`) before creating the snapshot, leaving an identity
with no registry entry. -/
theorem c10_dataless_connect_breaks_invariant :
    (∀ i, (∃ a, (a, i) ∈ initServer.clients) ↔ (∃ s, (i, s) ∈ initServer.players))
    ∧ Function.Injective (fun a : String => a)
    ∧ ¬ ((∃ a, (a, "A") ∈
          ((hostHandle (fun a => a) initServer "A" "" (.num 0) c10Pkt).1).clients)
        ↔ (∃ s, ("A", s) ∈
          ((hostHandle (fun a => a) initServer "A" "" (.num 0) c10Pkt).1).players)) := by
  refine ⟨fun i => by simp [initServer], fun a b h => h, ?_⟩
  intro h
  have hstep : (hostHandle (fun a => a) initServer "A" "" (.num 0) c10Pkt).1
      = ⟨[("A", "A")], []⟩ := rfl
  rw [hstep] at h
  obtain ⟨s, hs⟩ := h.mp ⟨"A", by simp⟩
  simp at hs

/-- C10 (amended): one step of the receive loop, on any datagram,
preserves "the set of identities stored in the client map equals the set
of keys of the player registry", under the conditions the code actually
maintains: the identity stored for each registered address is the one
derived from it, the derivation is injective on registered addresses,
and a `CONNECT` envelope carries a `data` field. -/
theorem c10_step_preserves_registry_match (pid : String → String) (st : ServerState) (addr raw : String)
    (now pkt : PyVal)
    (HC : ∀ q ∈ st.clients, q.2 = pid q.1)
    (HInj : ∀ a b, (alookup st.clients a).isSome → (alookup st.clients b).isSome →
        pid a = pid b → a = b)
    (Hdata : ∀ fields, pkt = .dict fields →
        ∀ t, alookup fields "type" = some t → isType t .CONNECT = true →
          (alookup fields "data").isSome)
    (HInv : ∀ i, (∃ a, (a, i) ∈ st.clients) ↔ (∃ s, (i, s) ∈ st.players)) :
    ∀ i, (∃ a, (a, i) ∈ ((hostHandle pid st addr raw now pkt).1).clients)
       ↔ (∃ s, (i, s) ∈ ((hostHandle pid st addr raw now pkt).1).players) := by
  intro i
  cases pkt
  case dict fields =>
    cases htype : alookup fields "type" with
    | none => simpa [hostHandle, htype] using HInv i
    | some t =>
      by_cases hconn : isType t .CONNECT = true
      · obtain ⟨d, hd⟩ := Option.isSome_iff_exists.mp (Hdata fields rfl t htype hconn)
        have hst : (hostHandle pid st addr raw now (.dict fields)).1
            = ⟨ainsert st.clients addr (pid addr), ainsert st.players (pid addr) d⟩ := by
          cases hcp : createPacket .WORLD_STATE now
              (.dict (ainsert st.players (pid addr) d)) with
          | error e => simp [hostHandle, htype, hconn, hd, hcp]
          | ok w => simp [hostHandle, htype, hconn, hd, hcp]
        rw [hst]
        constructor
        · rintro ⟨a, ha⟩
          rcases mem_ainsert ha with h | h
          · have hi : i = pid addr := congrArg Prod.snd h
            subst hi
            exact ⟨d, self_mem_ainsert _ _ _⟩
          · by_cases hip : i = pid addr
            · subst hip
              exact ⟨d, self_mem_ainsert _ _ _⟩
            · obtain ⟨s, hs⟩ := (HInv i).mp ⟨a, h⟩
              exact ⟨s, mem_ainsert_of_mem_ne hs _ _ hip⟩
        · rintro ⟨s, hs⟩
          rcases mem_ainsert hs with h | h
          · have hi : i = pid addr := congrArg Prod.fst h
            subst hi
            exact ⟨addr, self_mem_ainsert _ _ _⟩
          · obtain ⟨a, ha⟩ := (HInv i).mpr ⟨s, h⟩
            by_cases hax : a = addr
            · subst hax
              have hi : i = pid a := HC (a, i) ha
              subst hi
              exact ⟨a, self_mem_ainsert _ _ _⟩
            · exact ⟨a, mem_ainsert_of_mem_ne ha _ _ hax⟩
      · by_cases hupd : isType t .PLAYER_UPDATE = true
        · cases hcl : alookup st.clients addr with
          | none => simpa [hostHandle, htype, hconn, hupd, hcl] using HInv i
          | some p =>
            have hpmem : (addr, p) ∈ st.clients := alookup_mem hcl
            cases hpl : alookup st.players p with
            | none => simpa [hostHandle, htype, hconn, hupd, hcl, hpl] using HInv i
            | some stored =>
              cases hdata : alookup fields "data" with
              | none => simpa [hostHandle, htype, hconn, hupd, hcl, hpl, hdata] using HInv i
              | some dv =>
                cases stored with
                | dict s0 =>
                  cases dv with
                  | dict u =>
                    have hst : (hostHandle pid st addr raw now (.dict fields)).1
                        = ⟨st.clients,
                           ainsert st.players p (.dict (dictUpdate s0 u))⟩ := by
                      simp [hostHandle, htype, hconn, hupd, hcl, hpl, hdata]
                    rw [hst]
                    constructor
                    · rintro ⟨a, ha⟩
                      by_cases hip : i = p
                      · subst hip
                        exact ⟨_, self_mem_ainsert _ _ _⟩
                      · obtain ⟨s, hs⟩ := (HInv i).mp ⟨a, ha⟩
                        exact ⟨s, mem_ainsert_of_mem_ne hs _ _ hip⟩
                    · rintro ⟨s, hs⟩
                      rcases mem_ainsert hs with h | h
                      · have hi : i = p := congrArg Prod.fst h
                        subst hi
                        exact ⟨addr, hpmem⟩
                      · exact (HInv i).mpr ⟨s, h⟩
                  | none =>
                      simpa [hostHandle, htype, hconn, hupd, hcl, hpl, hdata] using HInv i
                  | bool b =>
                      simpa [hostHandle, htype, hconn, hupd, hcl, hpl, hdata] using HInv i
                  | num q =>
                      simpa [hostHandle, htype, hconn, hupd, hcl, hpl, hdata] using HInv i
                  | nan =>
                      simpa [hostHandle, htype, hconn, hupd, hcl, hpl, hdata] using HInv i
                  | inf ng =>
                      simpa [hostHandle, htype, hconn, hupd, hcl, hpl, hdata] using HInv i
                  | str s1 =>
                      simpa [hostHandle, htype, hconn, hupd, hcl, hpl, hdata] using HInv i
                  | list xs =>
                      simpa [hostHandle, htype, hconn, hupd, hcl, hpl, hdata] using HInv i
                  | enum t2 =>
                      simpa [hostHandle, htype, hconn, hupd, hcl, hpl, hdata] using HInv i
                | none =>
                  cases dv <;>
                      simpa [hostHandle, htype, hconn, hupd, hcl, hpl, hdata] using HInv i
                | bool b =>
                  cases dv <;>
                      simpa [hostHandle, htype, hconn, hupd, hcl, hpl, hdata] using HInv i
                | num q =>
                  cases dv <;>
                      simpa [hostHandle, htype, hconn, hupd, hcl, hpl, hdata] using HInv i
                | nan =>
                  cases dv <;>
                      simpa [hostHandle, htype, hconn, hupd, hcl, hpl, hdata] using HInv i
                | inf ng =>
                  cases dv <;>
                      simpa [hostHandle, htype, hconn, hupd, hcl, hpl, hdata] using HInv i
                | str s1 =>
                  cases dv <;>
                      simpa [hostHandle, htype, hconn, hupd, hcl, hpl, hdata] using HInv i
                | list xs =>
                  cases dv <;>
                      simpa [hostHandle, htype, hconn, hupd, hcl, hpl, hdata] using HInv i
                | enum t2 =>
                  cases dv <;>
                      simpa [hostHandle, htype, hconn, hupd, hcl, hpl, hdata] using HInv i
        · by_cases hdisc : isType t .DISCONNECT = true
          · cases hcl : alookup st.clients addr with
            | none => simpa [hostHandle, htype, hconn, hupd, hdisc, hcl] using HInv i
            | some p =>
              have hpmem : (addr, p) ∈ st.clients := alookup_mem hcl
              have hpid : p = pid addr := HC (addr, p) hpmem
              cases hpl : alookup st.players p with
              | none =>
                exfalso
                obtain ⟨s, hs⟩ := (HInv p).mp ⟨addr, hpmem⟩
                have hsome := alookup_isSome_of_mem hs
                rw [hpl] at hsome
                simp at hsome
              | some stored =>
                have hst : (hostHandle pid st addr raw now (.dict fields)).1
                    = ⟨aerase st.clients addr, aerase st.players p⟩ := by
                  simp [hostHandle, htype, hconn, hupd, hdisc, hcl, hpl]
                rw [hst]
                by_cases hip : i = p
                · subst hip
                  constructor
                  · rintro ⟨a, ha⟩
                    obtain ⟨hmem, hne⟩ := mem_aerase.1 ha
                    exfalso
                    have h1 : i = pid a := HC (a, i) hmem
                    have ha1 : (alookup st.clients a).isSome :=
                      alookup_isSome_of_mem hmem
                    have ha2 : (alookup st.clients addr).isSome := by
                      rw [hcl]; rfl
                    exact hne (HInj a addr ha1 ha2 (by rw [← h1, hpid]))
                  · rintro ⟨s, hs⟩
                    exact ((mem_aerase.1 hs).2 rfl).elim
                · constructor
                  · rintro ⟨a, ha⟩
                    obtain ⟨hmem, hne⟩ := mem_aerase.1 ha
                    obtain ⟨s, hs⟩ := (HInv i).mp ⟨a, hmem⟩
                    exact ⟨s, mem_aerase.2 ⟨hs, hip⟩⟩
                  · rintro ⟨s, hs⟩
                    obtain ⟨hmem, hne⟩ := mem_aerase.1 hs
                    obtain ⟨a, ha⟩ := (HInv i).mpr ⟨s, hmem⟩
                    refine ⟨a, mem_aerase.2 ⟨ha, ?_⟩⟩
                    intro hax
                    subst hax
                    exact hip ((HC (a, i) ha).trans hpid.symm)
          · simpa [hostHandle, htype, hconn, hupd, hdisc] using HInv i
  all_goals simpa [hostHandle] using HInv i

/-- Witness for `c10_step_preserves_registry_match`: a well-formed
`CONNECT` into the empty host keeps the client-map identities matching
the registry keys (checked at the new identity `"A"`). -/
theorem c10_step_preserves_registry_match_witness :
    (∃ a, (a, "A") ∈ ((hostHandle (fun a => a) initServer "A" "" (.num 0)
        (packetDict (.enum .CONNECT) (.num 0) (.dict []))).1).clients)
      ↔ (∃ s, ("A", s) ∈ ((hostHandle (fun a => a) initServer "A" "" (.num 0)
        (packetDict (.enum .CONNECT) (.num 0) (.dict []))).1).players) :=
  c10_step_preserves_registry_match (fun a => a) initServer "A" "" (.num 0)
    (packetDict (.enum .CONNECT) (.num 0) (.dict []))
    (fun q hq => absurd hq (List.not_mem_nil q))
    (fun a b ha hb h => by simp [initServer] at ha)
    (fun fields hf t ht hc => by injection hf with h; subst h; rfl)
    (fun i => by simp [initServer]) "A"
